import Mathlib

/-
Verification development for the Excel-ingestion utility
(src/process_data_sigitm.py).  The Python module defines a single class
ExcelFileHandler whose operations locate the most recent file with a fixed
name prefix, extract a load timestamp from the file name, load the
spreadsheet into a dataframe and normalize it (column renaming, date
coercion, identifier coercion, sentinel cleanup, text stringification).

The development below is a shallow embedding of that module:

  - a pandas dataframe is a Table: a list of named columns, each carrying a
    dtype tag (object vs. non-object, the only distinction the code relies
    on, via select_dtypes) and a list of cells;
  - a cell is missing (the one NA-ish value: None / NaN / NaT / pd.NA --
    the module funnels all of them through a single isna-based replace),
    a string, or an integer;
  - Python exceptions are modelled with Except; each try/except in the
    source becomes a total match on the Except value;
  - the filesystem is an association list of directories, each a list of
    entries (name, mtime, optional readable workbook content);
  - file paths are modelled by their file name (the code only uses
    Path.stem and Path.name on them).

The pandas version in scope is >= 2.2 (the code requests the calamine
engine, which that version introduced); under it Series.replace with an
explicit value=None replaces matches by None.
-/

/-- PyError models the Python exceptions the module raises or catches.
The message payload is what str(e) would render. -/
inductive PyError where
  | valueError (msg : String)
  | fileNotFoundError (msg : String)
  | typeError (msg : String)
deriving DecidableEq, Repr

def PyError.message : PyError → String
  | .valueError m => m
  | .fileNotFoundError m => m
  | .typeError m => m

/-- Cell models one pandas cell of the object columns this module handles:
missing collapses every NA-ish value (None, NaN, NaT, pd.NA), since the
module treats them uniformly through isna-based replacement. -/
inductive Cell where
  | missing
  | str (s : String)
  | int (n : Int)
deriving DecidableEq, Repr

/-- DType is the only dtype distinction the module observes:
select_dtypes(include=[object]) versus everything else. -/
inductive DType where
  | object
  | other
deriving DecidableEq, Repr

structure Column where
  name : String
  dtype : DType
  cells : List Cell
deriving DecidableEq, Repr

structure Table where
  cols : List Column
deriving DecidableEq, Repr

/-- Row count of a dataframe: length of its first column (0 when empty),
used when inserting a scalar-valued column. -/
def Table.nrows (t : Table) : Nat :=
  match t.cols with
  | [] => 0
  | c :: _ => c.cells.length

/-- mapExcept is List.mapM specialised to Except: the first error aborts,
mirroring a pandas column operation that raises on the first bad element. -/
def mapExcept (f : α → Except ε β) : List α → Except ε (List β)
  | [] => .ok []
  | x :: xs =>
    match f x with
    | .error e => .error e
    | .ok y =>
      match mapExcept f xs with
      | .error e => .error e
      | .ok ys => .ok (y :: ys)

/-- digitChar d is the decimal digit character for d (d taken mod the
clamp at 9), as used when rendering integers in base 10. -/
def digitChar : Nat → Char
  | 0 => '0'
  | 1 => '1'
  | 2 => '2'
  | 3 => '3'
  | 4 => '4'
  | 5 => '5'
  | 6 => '6'
  | 7 => '7'
  | 8 => '8'
  | _ => '9'

/-- natDecCharsAux renders n in decimal, most significant digit first,
with structural fuel; fuel at least n always suffices, since a number
needs no more digits than its own value. -/
def natDecCharsAux (fuel : Nat) (n : Nat) : List Char :=
  match fuel with
  | 0 => [digitChar n]
  | f + 1 => if n < 10 then [digitChar n] else natDecCharsAux f (n / 10) ++ [digitChar (n % 10)]

/-- natDecChars n is the list of decimal digit characters of n
(most significant first), the model of str() on a nonnegative integer. -/
def natDecChars (n : Nat) : List Char := natDecCharsAux n n

def natDecStr (n : Nat) : String := ⟨natDecChars n⟩

/-- intDecStr models Python str() on an int: decimal digits with a leading
minus sign for negative values. -/
def intDecStr (n : Int) : String :=
  if n < 0 then "-" ++ natDecStr n.natAbs else natDecStr n.natAbs

/-- pad2 zero-pads a number to two digits, as strftime %d %m %H %M %S do. -/
def pad2 (n : Nat) : String :=
  if n < 10 then "0" ++ natDecStr n else natDecStr n

/-- pad4 zero-pads a number to four digits, as strftime %Y does. -/
def pad4 (n : Nat) : String :=
  if n < 10 then "000" ++ natDecStr n
  else if n < 100 then "00" ++ natDecStr n
  else if n < 1000 then "0" ++ natDecStr n
  else natDecStr n

/-- DateTimeV is a parsed calendar timestamp (a pandas Timestamp or a
Python datetime, to second precision, which is all the module renders). -/
structure DateTimeV where
  year : Nat
  month : Nat
  day : Nat
  hour : Nat
  minute : Nat
  second : Nat
deriving DecidableEq, Repr

def isLeapYear (y : Nat) : Bool :=
  y % 4 == 0 && (y % 100 != 0 || y % 400 == 0)

def daysInMonth (y m : Nat) : Nat :=
  match m with
  | 1 => 31
  | 2 => if isLeapYear y then 29 else 28
  | 3 => 31
  | 4 => 30
  | 5 => 31
  | 6 => 30
  | 7 => 31
  | 8 => 31
  | 9 => 30
  | 10 => 31
  | 11 => 30
  | 12 => 31
  | _ => 0

/-- strftime with DATETIME_FORMAT_ISO = %Y-%m-%d %H:%M:%S. -/
def strftime_iso (d : DateTimeV) : String :=
  pad4 d.year ++ "-" ++ pad2 d.month ++ "-" ++ pad2 d.day ++ " " ++
    pad2 d.hour ++ ":" ++ pad2 d.minute ++ ":" ++ pad2 d.second

/-- strftime with DISPLAY_DATE_FORMAT = %Y-%m-%d. -/
def strftime_display_date (d : DateTimeV) : String :=
  pad4 d.year ++ "-" ++ pad2 d.month ++ "-" ++ pad2 d.day

/-- strftime with DISPLAY_DATETIME_FORMAT = %Y-%m-%d %H:%M. -/
def strftime_display_datetime (d : DateTimeV) : String :=
  pad4 d.year ++ "-" ++ pad2 d.month ++ "-" ++ pad2 d.day ++ " " ++
    pad2 d.hour ++ ":" ++ pad2 d.minute

/-- digVal gives the numeric value of a decimal digit character. -/
def digVal (c : Char) : Nat := c.toNat - 48

/-- civilFromDays converts a count of days since 1970-01-01 to a civil
(year, month, day) triple, the standard era-based algorithm used by
datetime libraries. Divisions on possibly negative values are floor
divisions (Int.fdiv). -/
def civilFromDays (z : Int) : Int × Nat × Nat :=
  let a : Int := z + 719468
  let era : Int := Int.fdiv a 146097
  let doe : Nat := (a - era * 146097).toNat
  let yoe : Nat := (doe - doe / 1460 + doe / 36524 - doe / 146096) / 365
  let doy : Nat := doe - (365 * yoe + yoe / 4 - yoe / 100)
  let mp : Nat := (5 * doy + 2) / 153
  let d : Nat := doy - (153 * mp + 2) / 5 + 1
  let m : Nat := if mp < 10 then mp + 3 else mp - 9
  (era * 400 + yoe + (if m ≤ 2 then 1 else 0), m, d)

/-- Pandas Timestamp bounds: nanosecond epochs are int64, so a numeric
cell outside these bounds is out of range and coerces to NaT. -/
def tsMinNs : Int := -(2 ^ 63)
def tsMaxNs : Int := 2 ^ 63 - 1

/-- epochNsToDateTime interprets an integer as a count of nanoseconds
since the Unix epoch, the way pd.to_datetime treats integers found in an
object column. -/
def epochNsToDateTime (ns : Int) : DateTimeV :=
  let day : Int := Int.fdiv ns 86400000000000
  let remNs : Nat := (ns - day * 86400000000000).toNat
  let secOfDay : Nat := remNs / 1000000000
  let ymd := civilFromDays day
  { year := ymd.1.toNat
    month := ymd.2.1
    day := ymd.2.2
    hour := secOfDay / 3600
    minute := secOfDay % 3600 / 60
    second := secOfDay % 60 }

/-- parseISOChars parses the ISO fragment of the date formats
pd.to_datetime infers: YYYY-MM-DD, optionally followed by HH:MM or
HH:MM:SS, with calendar validation (month, day-in-month, leap years).
This embeds the parser on the format family the spreadsheet columns
carry; anything else is unparseable and coerces to NaT. -/
def parseISOChars (l : List Char) : Option DateTimeV :=
  match l with
  | [y1, y2, y3, y4, '-', m1, m2, '-', d1, d2] =>
    parseYmdHms y1 y2 y3 y4 m1 m2 d1 d2 '0' '0' '0' '0' '0' '0'
  | [y1, y2, y3, y4, '-', m1, m2, '-', d1, d2, ' ', h1, h2, ':', n1, n2] =>
    parseYmdHms y1 y2 y3 y4 m1 m2 d1 d2 h1 h2 n1 n2 '0' '0'
  | [y1, y2, y3, y4, '-', m1, m2, '-', d1, d2, ' ', h1, h2, ':', n1, n2, ':', s1, s2] =>
    parseYmdHms y1 y2 y3 y4 m1 m2 d1 d2 h1 h2 n1 n2 s1 s2
  | _ => none
where
  parseYmdHms (y1 y2 y3 y4 m1 m2 d1 d2 h1 h2 n1 n2 s1 s2 : Char) : Option DateTimeV :=
    if ([y1, y2, y3, y4, m1, m2, d1, d2, h1, h2, n1, n2, s1, s2].all Char.isDigit) then
      let y := 1000 * digVal y1 + 100 * digVal y2 + 10 * digVal y3 + digVal y4
      let mo := 10 * digVal m1 + digVal m2
      let da := 10 * digVal d1 + digVal d2
      let ho := 10 * digVal h1 + digVal h2
      let mi := 10 * digVal n1 + digVal n2
      let se := 10 * digVal s1 + digVal s2
      if 1 ≤ mo && mo ≤ 12 && 1 ≤ da && da ≤ daysInMonth y mo &&
          ho ≤ 23 && mi ≤ 59 && se ≤ 59 then
        some ⟨y, mo, da, ho, mi, se⟩
      else none
    else none

/-- to_datetime_coerce is pd.to_datetime(cell, errors=coerce) on one cell
of an object column: NA-ish values give NaT (none), strings are parsed
(unparseable gives NaT), integers are nanosecond epochs (out-of-bounds
gives NaT). -/
def to_datetime_coerce (c : Cell) : Option DateTimeV :=
  match c with
  | .missing => none
  | .str s => parseISOChars s.data
  | .int n => if tsMinNs ≤ n && n ≤ tsMaxNs then some (epochNsToDateTime n) else none

/-- dateCellTransform is the per-cell effect of lines 154 and 157 of the
source: to_datetime with errors=coerce, then dt.strftime in ISO form with
where(notnull, None): a parsed cell becomes its ISO string, NaT becomes
None. -/
def dateCellTransform (c : Cell) : Cell :=
  match to_datetime_coerce c with
  | some d => .str (strftime_iso d)
  | none => .missing

/-- cleanupCell is the per-cell effect of line 170 of the source,
df.replace with keys pd.NA, nan, None, empty string and NaT: every NA-ish
value (matched through isna) and every one of the four sentinel strings
becomes None. -/
def cleanupCell (c : Cell) : Cell :=
  match c with
  | .missing => .missing
  | .str s => if s = "nan" || s = "None" || s = "" || s = "NaT" then .missing else .str s
  | .int n => .int n

/-- cleanupTable applies the line-170 replacement across all columns. -/
def cleanupTable (t : Table) : Table :=
  ⟨t.cols.map (fun c => { c with cells := c.cells.map cleanupCell })⟩

/-- cellToString models Python str() on a cell: str(None) is the literal
string None, strings are themselves, integers render in decimal. -/
def cellToString (c : Cell) : String :=
  match c with
  | .missing => "None"
  | .str s => s
  | .int n => intDecStr n

/-- textCellTransform is the per-cell effect of line 174: astype(str)
followed by replace of the literal string None with None. -/
def textCellTransform (c : Cell) : Cell :=
  let s := cellToString c
  if s = "None" then .missing else .str s

/-- normalizeTextColumns is line 173-174: select the object-dtype columns
and apply astype(str).replace(None-literal, None) to them; other columns
are untouched. -/
def normalizeTextColumns (t : Table) : Table :=
  ⟨t.cols.map (fun c =>
    if c.dtype = .object then { c with cells := c.cells.map textCellTransform } else c)⟩

/-- cellInt64 is astype(Int64) on one cell of an object column: integers
must fit in 64 bits, clean integer strings convert, anything else raises.
(The cell is never missing here: fillna(0) ran first.) -/
def cellInt64 (c : Cell) : Except PyError Int :=
  match c with
  | .missing => .error (.typeError "cannot convert NA to integer")
  | .int n =>
    if -(2 ^ 63) ≤ n && n < 2 ^ 63 then .ok n
    else .error (.typeError "Python int too large to convert to Int64")
  | .str s =>
    match s.toInt? with
    | some n =>
      if -(2 ^ 63) ≤ n && n < 2 ^ 63 then .ok n
      else .error (.typeError "Python int too large to convert to Int64")
    | none => .error (.valueError ("invalid literal for Int64 conversion: " ++ s))

/-- seriesFillna0 is fillna(0) on a column: NA-ish cells become integer 0,
everything else is unchanged. -/
def seriesFillna0 (cells : List Cell) : List Cell :=
  cells.map (fun c => match c with | .missing => .int 0 | c => c)

/-- idColTransform is line 167 of the source applied to the cells of one
identifier column: fillna(0), astype(Int64) (raising on the first cell
that does not convert), astype(str), then replace of the string 0 by
None. -/
def idColTransform (cells : List Cell) : Except PyError (List Cell) :=
  (mapExcept cellInt64 (seriesFillna0 cells)).map
    (List.map (fun n => if intDecStr n = "0" then Cell.missing else Cell.str (intDecStr n)))

/-- COLUMN_MAPPING from the source: source column names to canonical
identifier-style names. -/
def COLUMN_MAPPING : List (String × String) :=
  [("Data Criacao", "data_criacao"),
   ("VTA PK", "vta_pk"),
   ("Raiz", "raiz"),
   ("Tíquete Referência", "tiquete_referencia"),
   ("Tipo de Bilhete", "tipo_de_bilhete"),
   ("Tipo de Alarme", "tipo_de_alarme"),
   ("Tipo de Afetação", "tipo_de_afetacao"),
   ("Tipo TA", "tipo_ta"),
   ("Tipo de Planta", "tipo_de_planta"),
   ("Código Localidade", "codigo_localidade"),
   ("Sigla Estado", "sigla_estado"),
   ("Sigla Município", "sigla_municipio"),
   ("Nome Município", "nome_municipio"),
   ("Bairro", "bairro"),
   ("Código Site", "codigo_site"),
   ("Sigla Site V2", "sigla_site_v2"),
   ("Empresa Manutenção", "empresa_manutencao"),
   ("Grupo Responsavel", "grupo_responsavel"),
   ("Status", "status"),
   ("Data de Baixa", "data_de_baixa"),
   ("Data Encerramento", "data_encerramento"),
   ("Observação Histórico", "observacao_historico")]

/-- PFX is the PREFIX constant of the source (the name is shortened in
this development). -/
def PFX : String := "CONSULTA_TLP_PCP_CS"

def DATE_COLUMNS : List String := ["data_criacao", "data_de_baixa", "data_encerramento"]

def id_cols : List String := ["vta_pk", "raiz", "codigo_localidade"]

/-- renameColumn applies the rename dictionary to one column label:
mapped labels change, unmapped labels stay. -/
def renameColumn (c : Column) : Column :=
  { c with name := ((COLUMN_MAPPING.lookup c.name).getD c.name) }

/-- rename_columns is line 140 of the source: df.rename(columns=...). -/
def rename_columns (t : Table) : Table :=
  ⟨t.cols.map renameColumn⟩

/-- splitLastDot splits a character list at its last dot, returning the
parts before and after; none when there is no dot. -/
def splitLastDot : List Char → Option (List Char × List Char)
  | [] => none
  | c :: rest =>
    match splitLastDot rest with
    | some (b, a) => some (c :: b, a)
    | none => if c = '.' then some ([], rest) else none

/-- stemOf models pathlib Path.stem on a file name: the name without its
suffix, where the suffix is the part from the last dot when that dot is
neither leading nor trailing. -/
def stemOf (s : String) : String :=
  match splitLastDot s.data with
  | some (b, a) => if b ≠ [] ∧ a ≠ [] then ⟨b⟩ else s
  | none => s

/-- tokenAt checks whether the character list starts with the pattern of
six digits, an underscore and four digits, and returns those eleven
characters. -/
def tokenAt (l : List Char) : Option (List Char) :=
  match l with
  | d1 :: d2 :: d3 :: d4 :: d5 :: d6 :: '_' :: h1 :: h2 :: h3 :: h4 :: _ =>
    if ([d1, d2, d3, d4, d5, d6, h1, h2, h3, h4].all Char.isDigit) then
      some [d1, d2, d3, d4, d5, d6, '_', h1, h2, h3, h4]
    else none
  | _ => none

/-- firstToken is re.search for six digits, underscore, four digits: the
leftmost window matching the pattern (the pattern is of fixed width, so
leftmost match equals first matching start position). -/
def firstToken : List Char → Option (List Char)
  | [] => none
  | c :: rest =>
    match tokenAt (c :: rest) with
    | some t => some t
    | none => firstToken rest

/-- strptime_ddmmyy_hhmm is datetime.strptime(token, DATETIME_FORMAT) with
DATETIME_FORMAT = %d%m%y_%H%M: two-digit day, month, year, underscore,
two-digit hour and minute, with calendar validation and the strptime %y
pivot (00-68 maps to 2000-2068, 69-99 to 1969-1999). -/
def strptime_ddmmyy_hhmm (l : List Char) : Except PyError DateTimeV :=
  match l with
  | [d1, d2, m1, m2, y1, y2, '_', h1, h2, n1, n2] =>
    if ([d1, d2, m1, m2, y1, y2, h1, h2, n1, n2].all Char.isDigit) then
      let da := 10 * digVal d1 + digVal d2
      let mo := 10 * digVal m1 + digVal m2
      let yy := 10 * digVal y1 + digVal y2
      let y := if yy ≤ 68 then 2000 + yy else 1900 + yy
      let ho := 10 * digVal h1 + digVal h2
      let mi := 10 * digVal n1 + digVal n2
      if 1 ≤ mo && mo ≤ 12 && 1 ≤ da && da ≤ daysInMonth y mo &&
          ho ≤ 23 && mi ≤ 59 then
        .ok ⟨y, mo, da, ho, mi, 0⟩
      else .error (.valueError "time data does not match format")
    else .error (.valueError "time data does not match format")
  | _ => .error (.valueError "time data does not match format")

/-- extract_datetime_from_filename is _extract_datetime_from_filename of
the source: take the stem of the file name, search it for the first
six-digit underscore four-digit token, parse the token with strptime, and
render the display date and display datetime strings. A missing token
raises ValueError with the pattern-not-found message; a token that does
not parse propagates the strptime ValueError. (The source logs and
re-raises; the exception value is unchanged.) -/
def extract_datetime_from_filename (filePath : String) : Except PyError (String × String) :=
  let file_name := stemOf filePath
  match firstToken file_name.data with
  | none => .error (.valueError ("Padrão de data não encontrado em: " ++ file_name))
  | some tok =>
    match strptime_ddmmyy_hhmm tok with
    | .ok dt => .ok (strftime_display_date dt, strftime_display_datetime dt)
    | .error e => .error e

/-- insertCol is df.insert(loc, name, scalar): refuses a column name that
already exists (allow_duplicates defaults to False), otherwise inserts at
the given position a column holding the scalar in every row. The inserted
columns are string constants, hence object dtype. -/
def insertCol (t : Table) (loc : Nat) (nm : String) (v : Cell) : Except PyError Table :=
  if t.cols.any (fun c => c.name == nm) then
    .error (.valueError ("cannot insert " ++ nm ++ ", already exists"))
  else
    .ok ⟨t.cols.insertIdx loc ⟨nm, .object, List.replicate t.nrows v⟩⟩

/-- dateColBody is the body of the try at lines 150-157 for one date
column name. With a single column of that label the two assignments
amount to mapping dateCellTransform over its cells, leaving a column of
strings and None (object dtype). With duplicate labels, df of the label
is a frame and pd.to_datetime raises before anything is assigned, so the
body fails with no change. (When the label is absent the guard at line
149 means the body never runs; it is a no-op here.) -/
def dateColBody (t : Table) (col : String) : Except PyError Table :=
  if 2 ≤ (t.cols.filter (fun c => c.name == col)).length then
    .error (.valueError "to assemble mappings requires at least that [year, month, day] be specified")
  else
    .ok ⟨t.cols.map (fun c =>
      if c.name == col then { c with dtype := .object, cells := c.cells.map dateCellTransform }
      else c)⟩

/-- processDateColumnTry is one iteration of the loop at lines 148-160:
if the column is present, run the body; a raised exception is caught and
logged as a warning (returned here as the optional message), leaving the
table untouched. -/
def processDateColumnTry (t : Table) (col : String) : Table × Option String :=
  if t.cols.any (fun c => c.name == col) then
    match dateColBody t col with
    | .ok t2 => (t2, none)
    | .error e => (t, some ("⚠️ Erro no processamento da coluna " ++ col ++ ": " ++ e.message))
  else (t, none)

def processDateColumnSafe (t : Table) (col : String) : Table :=
  (processDateColumnTry t col).1

/-- processIdColumn is one iteration of the loop at lines 165-167: if the
identifier column is present, each column with that label is replaced by
idColTransform of its cells (the result cells are strings or None, hence
object dtype); a conversion failure raises, and no handler catches it
before the operation boundary. -/
def processIdColumn (t : Table) (col : String) : Except PyError Table :=
  if t.cols.any (fun c => c.name == col) then
    (mapExcept (fun c =>
      if c.name == col then
        (idColTransform c.cells).map (fun cs => { c with dtype := DType.object, cells := cs })
      else .ok c) t.cols).map Table.mk
  else .ok t

/-- foldIdColumns runs the identifier loop of lines 165-167 over the
configured column names in order; the first conversion failure aborts
(propagating to the operation boundary, as no handler wraps this loop). -/
def foldIdColumns (t : Table) : List String → Except PyError Table
  | [] => .ok t
  | c :: cs =>
    match processIdColumn t c with
    | .error e => .error e
    | .ok t2 => foldIdColumns t2 cs

/-- process_dataframe is _process_dataframe of the source: rename, insert
the two load columns, the fail-soft date loop, the identifier loop, the
global sentinel cleanup, and the text-column normalization. -/
def process_dataframe (df : Table) (filePath : String) : Except PyError Table :=
  let df1 := rename_columns df
  match extract_datetime_from_filename filePath with
  | .error e => .error e
  | .ok carga =>
    match insertCol df1 0 "dt_carga" (.str carga.1) with
    | .error e => .error e
    | .ok df2 =>
      match insertCol df2 1 "dthr_carga" (.str carga.2) with
      | .error e => .error e
      | .ok df3 =>
        match foldIdColumns (DATE_COLUMNS.foldl processDateColumnSafe df3) id_cols with
        | .error e => .error e
        | .ok df5 => .ok (normalizeTextColumns (cleanupTable df5))

/-- FileEntry is a directory entry: a file name, a modification time, and
the workbook content pd.read_excel would produce for it (none when the
file is not a readable workbook, in which case read_excel raises). -/
structure FileEntry where
  name : String
  mtime : Nat
  content : Option Table
deriving DecidableEq, Repr

/-- FileSystem is an association list from directory paths (component
lists) to their entries, in a fixed deterministic listing order. -/
structure FileSystem where
  dirs : List (List String × List FileEntry)
deriving DecidableEq, Repr

def FileSystem.existsDir (fs : FileSystem) (d : List String) : Bool :=
  fs.dirs.any (fun p => p.1 == d)

def FileSystem.entriesOf (fs : FileSystem) (d : List String) : List FileEntry :=
  match fs.dirs.find? (fun p => p.1 == d) with
  | some p => p.2
  | none => []

/-- matchesAtStart decides whether the first character list is a prefix of
the second; strStartsWith is the corresponding test on strings, the model
of matching the glob pattern prefix-star (the configured prefix contains
no glob metacharacters). -/
def matchesAtStart : List Char → List Char → Bool
  | [], _ => true
  | _ :: _, [] => false
  | c :: cs, d :: ds => c == d && matchesAtStart cs ds

def strStartsWith (s pre : String) : Bool := matchesAtStart pre.data s.data

/-- pyMaxBy is Python max with a key function: fold keeping the current
element unless a strictly larger key appears, so the first element among
ties is returned. -/
def pyMaxBy (key : α → Nat) (x : α) (l : List α) : α :=
  l.foldl (fun a b => if key a < key b then b else a) x

/-- find_most_recent_file is _find_most_recent_file of the source: glob
the directory for names starting with the configured prefix (the prefix
contains no glob metacharacters), raise FileNotFoundError when nothing
matches, otherwise take the max by modification time. -/
def find_most_recent_file (fs : FileSystem) (dir : List String) (pfx : String) :
    Except PyError FileEntry :=
  match (fs.entriesOf dir).filter (fun f => strStartsWith f.name pfx) with
  | [] => .error (.fileNotFoundError
      ("Nenhum arquivo com prefixo " ++ pfx ++ " encontrado em " ++ String.intercalate "/" dir))
  | f :: rest => .ok (pyMaxBy FileEntry.mtime f rest)

/-- read_excel is pd.read_excel on a path (modelled by file name): the
first entry of that name anywhere in the filesystem is read; a missing
file or an unreadable workbook raises. -/
def read_excel (fs : FileSystem) (p : String) : Except PyError Table :=
  match (fs.dirs.flatMap Prod.snd).find? (fun f => f.name == p) with
  | some f =>
    match f.content with
    | some t => .ok t
    | none => .error (.valueError ("Excel file format cannot be determined: " ++ p))
  | none => .error (.fileNotFoundError p)

/-- FileProcessingResult is the dataclass of the source. -/
structure FileProcessingResult where
  success : Bool
  message : String
  dataframe : Option Table
deriving DecidableEq, Repr

/-- load_to_dataframe is _load_to_dataframe of the source: read the
workbook and process it; any exception is caught and converted into a
failed result whose message interpolates str(e). -/
def load_to_dataframe (fs : FileSystem) (filePath : String) : FileProcessingResult :=
  match (read_excel fs filePath).bind (fun df => process_dataframe df filePath) with
  | .ok t => ⟨true, "Arquivo processado com sucesso", some t⟩
  | .error e => ⟨false, "Erro ao processar arquivo: " ++ e.message, none⟩

/-- process_most_recent_file is the public operation of the source: use
the explicit path when the orchestrator supplies one, otherwise fall back
to the directory scan; a scan failure is caught and converted into a
failed result. The delegate load_to_dataframe never raises. -/
def process_most_recent_file (fs : FileSystem) (dir : List String) (pfx : String)
    (filePath : Option String) : FileProcessingResult :=
  match (match filePath with
         | some p => Except.ok p
         | none => (find_most_recent_file fs dir pfx).map FileEntry.name) with
  | .ok p => load_to_dataframe fs p
  | .error e => ⟨false, "Erro ao processar arquivo mais recente: " ++ e.message, none⟩

/-- nonemptyPrefixes lists the nonempty component prefixes of a path,
shortest first; these are the directories mkdir(parents=True) ensures. -/
def nonemptyPrefixes (dir : List String) : List (List String) :=
  (List.range dir.length).map (fun i => dir.take (i + 1))

/-- mkdirParents is Path.mkdir(parents=True, exist_ok=True): every
missing ancestor of the path, and the path itself, is created empty;
existing directories are untouched. -/
def mkdirParents (fs : FileSystem) (dir : List String) : FileSystem :=
  ⟨fs.dirs ++ ((nonemptyPrefixes dir).filter (fun p => !(fs.existsDir p))).map (fun p => (p, []))⟩

/-- handler_init is the directory bookkeeping of ExcelFileHandler.init
(lines 73-76): when the configured directory does not exist, log a
warning, create it with parents, log the creation. The returned list is
the log, level paired with message, in emission order. -/
def handler_init (fs : FileSystem) (dir : List String) : FileSystem × List (String × String) :=
  if fs.existsDir dir then (fs, [])
  else
    (mkdirParents fs dir,
     [("warning", "Diretório não encontrado: " ++ String.intercalate "/" dir),
      ("info", "Diretório criado: " ++ String.intercalate "/" dir)])

/-
Helper lemmas about the decimal rendering of integers: every character is
a digit, the rendering is nonempty, and only zero renders as the string 0.
-/

theorem digitChar_isDigit (d : Nat) : (digitChar d).isDigit = true := by
  unfold digitChar
  split <;> rfl

theorem natDecCharsAux_ne_nil (fuel n : Nat) : natDecCharsAux fuel n ≠ [] := by
  cases fuel with
  | zero => simp [natDecCharsAux]
  | succ f =>
    simp only [natDecCharsAux]
    split
    · simp
    · simp

theorem natDecCharsAux_all_digit (fuel : Nat) :
    ∀ n, ∀ c ∈ natDecCharsAux fuel n, c.isDigit = true := by
  induction fuel with
  | zero =>
    intro n c hc
    simp only [natDecCharsAux, List.mem_singleton] at hc
    subst hc
    exact digitChar_isDigit n
  | succ f ih =>
    intro n c hc
    simp only [natDecCharsAux] at hc
    split at hc
    · simp only [List.mem_singleton] at hc
      subst hc
      exact digitChar_isDigit n
    · rw [List.mem_append] at hc
      rcases hc with h | h
      · exact ih _ c h
      · simp only [List.mem_singleton] at h
        subst h
        exact digitChar_isDigit _

theorem natDecStr_all_digit (n : Nat) : ∀ c ∈ (natDecStr n).data, c.isDigit = true :=
  natDecCharsAux_all_digit n n

theorem natDecStr_data_ne_nil (n : Nat) : (natDecStr n).data ≠ [] :=
  natDecCharsAux_ne_nil n n

theorem natDecStr_ne_zero (m : Nat) (hm : m ≠ 0) : natDecStr m ≠ "0" := by
  intro he
  have hd : natDecChars m = ['0'] := congrArg String.data he
  cases m with
  | zero => exact hm rfl
  | succ f =>
    simp only [natDecChars, natDecCharsAux] at hd
    split at hd
    · have h0 : digitChar (f + 1) = '0' := by
        injection hd
      rename_i hlt
      have hf9 : f < 9 := by omega
      interval_cases f <;> exact absurd h0 (by decide)
    · have hl := congrArg List.length hd
      rw [List.length_append] at hl
      simp only [List.length_singleton, List.length_cons, List.length_nil] at hl
      have : natDecCharsAux f ((f + 1) / 10) = [] := List.length_eq_zero.mp (by omega)
      exact natDecCharsAux_ne_nil _ _ this

theorem intDecStr_head (n : Int) :
    ∃ c l, (intDecStr n).data = c :: l ∧ (c.isDigit = true ∨ c = '-') := by
  unfold intDecStr
  split
  · exact ⟨'-', (natDecStr n.natAbs).data, rfl, Or.inr rfl⟩
  · obtain ⟨c, l, hh⟩ := List.exists_cons_of_ne_nil (natDecStr_data_ne_nil n.natAbs)
    refine ⟨c, l, hh, Or.inl ?_⟩
    exact natDecStr_all_digit _ c (by rw [hh]; exact List.mem_cons_self c l)

theorem intDecStr_ne_sentinel (n : Int) :
    intDecStr n ≠ "nan" ∧ intDecStr n ≠ "None" ∧ intDecStr n ≠ "" ∧ intDecStr n ≠ "NaT" := by
  obtain ⟨c, l, hd, hc⟩ := intDecStr_head n
  refine ⟨?_, ?_, ?_, ?_⟩ <;> intro he <;> rw [he] at hd
  · have h1 : ('n' :: 'a' :: 'n' :: []) = c :: l := hd
    have h2 : c = 'n' := by injection h1 with h2 _; exact h2.symm
    subst h2
    rcases hc with h | h
    · exact absurd h (by decide)
    · exact absurd h (by decide)
  · have h1 : ('N' :: 'o' :: 'n' :: 'e' :: []) = c :: l := hd
    have h2 : c = 'N' := by injection h1 with h2 _; exact h2.symm
    subst h2
    rcases hc with h | h
    · exact absurd h (by decide)
    · exact absurd h (by decide)
  · have h1 : ([] : List Char) = c :: l := hd
    exact List.noConfusion h1
  · have h1 : ('N' :: 'a' :: 'T' :: []) = c :: l := hd
    have h2 : c = 'N' := by injection h1 with h2 _; exact h2.symm
    subst h2
    rcases hc with h | h
    · exact absurd h (by decide)
    · exact absurd h (by decide)

theorem intDecStr_eq_zero_iff (n : Int) : intDecStr n = "0" ↔ n = 0 := by
  constructor
  · intro he
    unfold intDecStr at he
    split at he
    · exfalso
      have hd : ('-' :: (natDecStr n.natAbs).data) = ['0'] := congrArg String.data he
      injection hd with h1 _
      exact absurd h1 (by decide)
    · have habs : n.natAbs = 0 := by
        by_contra hne
        exact natDecStr_ne_zero n.natAbs hne he
      omega
  · rintro rfl
    rfl

theorem cleanupCell_str (s : String) :
    cleanupCell (.str s) =
      if (decide (s = "nan") || decide (s = "None") || decide (s = "") || decide (s = "NaT")) = true
      then Cell.missing else Cell.str s := rfl

theorem cleanupCell_idem (c : Cell) : cleanupCell (cleanupCell c) = cleanupCell c := by
  cases c with
  | missing => rfl
  | int n => rfl
  | str s =>
    cases hcond : (decide (s = "nan") || decide (s = "None") || decide (s = "") || decide (s = "NaT")) with
    | true =>
      have h1 : cleanupCell (.str s) = .missing := by rw [cleanupCell_str, hcond]; rfl
      rw [h1]
      rfl
    | false =>
      have h1 : cleanupCell (.str s) = .str s := by rw [cleanupCell_str, hcond]; rfl
      rw [h1, h1]

/-- C8: the global missing-marker cleanup pass of line 170 (replacing the
missing marker and the literals nan, None, empty string and NaT by the
canonical marker) is idempotent: applying it twice to any table yields the
same table as applying it once. -/
theorem C8_cleanup_idempotent (t : Table) :
    cleanupTable (cleanupTable t) = cleanupTable t := by
  unfold cleanupTable
  simp only [List.map_map]
  congr 1
  apply List.map_congr_left
  intro c _
  simp only [Function.comp_apply, List.map_map]
  congr 1
  apply List.map_congr_left
  intro x _
  exact cleanupCell_idem x

theorem dateColBody_error_dup (t : Table) (col : String) (e : PyError)
    (h : dateColBody t col = .error e) :
    2 ≤ (t.cols.filter (fun c => c.name == col)).length := by
  unfold dateColBody at h
  split at h
  · assumption
  · exact Except.noConfusion h

/-- C5: for every date column whose transformation raises (with a single
try-block body that fails before any assignment, as with a duplicated
column label, where to_datetime receives a frame), the exception is
caught, a warning naming the column is logged, and the table — in
particular that column — is returned exactly as it was before the step;
the failure never aborts the load, since the caught step returns the
table and the loop continues. -/
theorem C5_date_column_fail_soft (t : Table) (col : String) (e : PyError)
    (h : dateColBody t col = .error e) :
    processDateColumnTry t col =
      (t, some ("⚠️ Erro no processamento da coluna " ++ col ++ ": " ++ e.message)) ∧
    processDateColumnSafe t col = t := by
  have hlen := dateColBody_error_dup t col e h
  have hmem : ∃ c, c ∈ t.cols ∧ (c.name == col) = true := by
    obtain ⟨c, hc⟩ := List.exists_mem_of_length_pos (by omega :
      0 < (t.cols.filter (fun c => c.name == col)).length)
    exact ⟨c, (List.mem_filter.mp hc).1, (List.mem_filter.mp hc).2⟩
  have hany : t.cols.any (fun c => c.name == col) = true := List.any_eq_true.mpr hmem
  constructor
  · unfold processDateColumnTry
    rw [hany]
    simp only [if_true]
    rw [h]
  · unfold processDateColumnSafe processDateColumnTry
    rw [hany]
    simp only [if_true]
    rw [h]

/-- C5 witness: a concrete table with a duplicated date-column label, on
which the date step fails and is caught, leaving the table unchanged and
logging the warning. -/
theorem C5_date_column_fail_soft_witness :
    processDateColumnTry
        ⟨[⟨"data_criacao", .other, [.str "a"]⟩, ⟨"data_criacao", .other, []⟩]⟩
        "data_criacao" =
      (⟨[⟨"data_criacao", .other, [.str "a"]⟩, ⟨"data_criacao", .other, []⟩]⟩,
       some "⚠️ Erro no processamento da coluna data_criacao: to assemble mappings requires at least that [year, month, day] be specified") :=
  (C5_date_column_fail_soft
    ⟨[⟨"data_criacao", .other, [.str "a"]⟩, ⟨"data_criacao", .other, []⟩]⟩
    "data_criacao"
    (.valueError "to assemble mappings requires at least that [year, month, day] be specified")
    rfl).1

/-- C3: for every configured date column present in the table (here for
any column label occurring once, which covers the three configured date
columns), the step maps each cell independently: a cell the coercing
parser accepts becomes its canonical ISO string (%Y-%m-%d %H:%M:%S), and
an unparseable or missing cell becomes the missing marker, without
raising; in particular the column [2024-01-01, not a date, missing]
normalizes to [2024-01-01 00:00:00, missing, missing]. -/
theorem C3_date_column_normalization :
    (∀ c : Cell, to_datetime_coerce c = none → dateCellTransform c = .missing) ∧
    (∀ (c : Cell) (d : DateTimeV), to_datetime_coerce c = some d →
      dateCellTransform c = .str (strftime_iso d)) ∧
    ([Cell.str "2024-01-01", Cell.str "not a date", Cell.missing].map dateCellTransform =
      [Cell.str "2024-01-01 00:00:00", Cell.missing, Cell.missing]) ∧
    (∀ (t : Table) (col : String),
      t.cols.countP (fun c => c.name == col) = 1 →
      processDateColumnSafe t col =
        ⟨t.cols.map (fun c =>
          if c.name == col then { c with dtype := .object, cells := c.cells.map dateCellTransform }
          else c)⟩) := by
  refine ⟨?_, ?_, ?_, ?_⟩
  · intro c h
    unfold dateCellTransform
    rw [h]
  · intro c d h
    unfold dateCellTransform
    rw [h]
  · rfl
  · intro t col hcount
    have hflen : (t.cols.filter (fun c => c.name == col)).length = 1 := by
      rw [← List.countP_eq_length_filter]
      exact hcount
    have hany : t.cols.any (fun c => c.name == col) = true := by
      rw [List.any_eq_true]
      have hpos : 0 < t.cols.countP (fun c => c.name == col) := by omega
      obtain ⟨a, ha, hpa⟩ := List.countP_pos_iff.mp hpos
      exact ⟨a, ha, hpa⟩
    unfold processDateColumnSafe processDateColumnTry
    rw [hany]
    simp only [if_true]
    unfold dateColBody
    rw [if_neg (by rw [hflen]; omega)]

/-- C3 witness: the general clauses applied at concrete cells — a
parseable date string, an unparseable string and a missing cell. -/
theorem C3_date_column_normalization_witness :
    dateCellTransform (.str "2024-01-01") = .str "2024-01-01 00:00:00" ∧
    dateCellTransform (.str "not a date") = .missing ∧
    dateCellTransform .missing = .missing :=
  ⟨C3_date_column_normalization.2.1 (.str "2024-01-01") ⟨2024, 1, 1, 0, 0, 0⟩ rfl,
   C3_date_column_normalization.1 (.str "not a date") rfl,
   C3_date_column_normalization.1 .missing rfl⟩

/-- C4: for a file name containing a DDMMYY_HHMM digit token, the
extraction parses the first such token and, when it parses, returns the
display pair (date-only, date-time); on the concrete consultation file
name it returns 2026-01-04 and 2026-01-04 12:12; on a name with no token
it fails with the pattern-not-found ValueError. -/
theorem C4_extract_load_timestamp :
    (∀ (p : String) (tok : List Char) (dt : DateTimeV),
      firstToken (stemOf p).data = some tok →
      strptime_ddmmyy_hhmm tok = .ok dt →
      extract_datetime_from_filename p =
        .ok (strftime_display_date dt, strftime_display_datetime dt)) ∧
    (extract_datetime_from_filename "CONSULTA_TLP_PCP_CS_040126_1212.xlsx" =
      .ok ("2026-01-04", "2026-01-04 12:12")) ∧
    (extract_datetime_from_filename "no_timestamp_here.xlsx" =
      .error (.valueError ("Padrão de data não encontrado em: no_timestamp_here"))) := by
  refine ⟨?_, rfl, rfl⟩
  intro p tok dt h1 h2
  unfold extract_datetime_from_filename
  simp only [h1, h2]

/-- C4 witness: the general clause applied to a concrete file name whose
first token parses. -/
theorem C4_extract_load_timestamp_witness :
    extract_datetime_from_filename "A_311299_2359.csv" =
      .ok ("1999-12-31", "1999-12-31 23:59") :=
  C4_extract_load_timestamp.1 "A_311299_2359.csv" "311299_2359".data
    ⟨1999, 12, 31, 23, 59, 0⟩ rfl rfl

theorem mapExcept_cons_ok {α β ε : Type} {f : α → Except ε β} {x : α} {y : β}
    {xs : List α} {ys : List β} (hx : f x = .ok y) (hxs : mapExcept f xs = .ok ys) :
    mapExcept f (x :: xs) = .ok (y :: ys) := by
  unfold mapExcept
  rw [hx, hxs]

theorem mapExcept_int64 (ids : List (Option Int))
    (h : ∀ o ∈ ids, -(2 ^ 63) ≤ o.getD 0 ∧ o.getD 0 < 2 ^ 63) :
    mapExcept cellInt64 (seriesFillna0 (ids.map (fun o => match o with
      | none => Cell.missing
      | some m => Cell.int m))) =
      .ok (ids.map (fun o => o.getD 0)) := by
  induction ids with
  | nil => rfl
  | cons o rest ih =>
    have hrest := ih (fun o2 ho2 => h o2 (List.mem_cons_of_mem _ ho2))
    cases o with
    | none =>
      exact mapExcept_cons_ok rfl hrest
    | some m =>
      have hb := h (some m) (List.mem_cons_self _ _)
      have hcond : (decide (-(2 ^ 63) ≤ m) && decide (m < 2 ^ 63)) = true := by
        simp only [Bool.and_eq_true, decide_eq_true_eq]
        exact hb
      have hx : cellInt64 (Cell.int m) = .ok m := by
        simp only [cellInt64]
        rw [hcond]
        rfl
      exact mapExcept_cons_ok hx hrest

/-- C2: for every identifier column whose cells are 64-bit integers or
missing, the transformation treats a missing cell as zero, coerces to the
64-bit nullable integer, renders the decimal string and then replaces the
literal string 0 by the missing marker; so each cell maps to its decimal
string, except that zero and missing both become missing, and every
non-missing output is a decimal integer string, never a float rendering. -/
theorem C2_identifier_normalization (ids : List (Option Int))
    (h : ∀ o ∈ ids, -(2 ^ 63) ≤ o.getD 0 ∧ o.getD 0 < 2 ^ 63) :
    idColTransform (ids.map (fun o => match o with
      | none => Cell.missing
      | some m => Cell.int m)) =
      .ok (ids.map (fun o => match o with
        | none => Cell.missing
        | some m => if m = 0 then Cell.missing else Cell.str (intDecStr m))) := by
  unfold idColTransform
  rw [mapExcept_int64 ids h]
  show Except.ok (List.map _ (ids.map (fun o => o.getD 0))) = _
  rw [List.map_map]
  congr 1
  apply List.map_congr_left
  intro o _
  simp only [Function.comp_apply]
  cases o with
  | none =>
    show (if intDecStr 0 = "0" then Cell.missing else Cell.str (intDecStr 0)) = Cell.missing
    rfl
  | some m =>
    show (if intDecStr m = "0" then Cell.missing else Cell.str (intDecStr m)) =
      (if m = 0 then Cell.missing else Cell.str (intDecStr m))
    by_cases hm : m = 0
    · subst hm
      rfl
    · rw [if_neg (fun hh => hm ((intDecStr_eq_zero_iff m).mp hh)), if_neg hm]

/-- C2 witness: the concrete identifier column [123, missing, 0, 456]
normalizes to [123, missing, missing, 456] as strings. -/
theorem C2_identifier_normalization_witness :
    idColTransform [.int 123, .missing, .int 0, .int 456] =
      .ok [.str "123", .missing, .missing, .str "456"] :=
  (C2_identifier_normalization [some 123, none, some 0, some 456] (by decide)).trans rfl

theorem pyMaxBy_spec {α : Type} (key : α → Nat) :
    ∀ (l : List α) (x : α),
      pyMaxBy key x l ∈ x :: l ∧ ∀ y ∈ x :: l, key y ≤ key (pyMaxBy key x l) := by
  intro l
  induction l with
  | nil =>
    intro x
    refine ⟨List.mem_cons_self _ _, ?_⟩
    intro y hy
    rcases List.mem_cons.mp hy with h | h
    · subst h
      exact le_refl _
    · exact absurd h (List.not_mem_nil y)
  | cons b l ih =>
    intro x
    have hstep : pyMaxBy key x (b :: l) = pyMaxBy key (if key x < key b then b else x) l := rfl
    obtain ⟨hmem, hmax⟩ := ih (if key x < key b then b else x)
    constructor
    · rw [hstep]
      rcases List.mem_cons.mp hmem with h | h
      · rw [h]
        split
        · exact List.mem_cons_of_mem _ (List.mem_cons_self _ _)
        · exact List.mem_cons_self _ _
      · exact List.mem_cons_of_mem _ (List.mem_cons_of_mem _ h)
    · intro y hy
      rw [hstep]
      rcases List.mem_cons.mp hy with h | h
      · subst h
        have hx2 : key y ≤ key (if key y < key b then b else y) := by
          split
          · rename_i hlt
            exact Nat.le_of_lt hlt
          · exact le_refl _
        exact le_trans hx2 (hmax _ (List.mem_cons_self _ _))
      · rcases List.mem_cons.mp h with h2 | h2
        · subst h2
          have hb2 : key y ≤ key (if key x < key y then y else x) := by
            split
            · exact le_refl _
            · rename_i hnlt
              omega
          exact le_trans hb2 (hmax _ (List.mem_cons_self _ _))
        · exact hmax y (List.mem_cons_of_mem _ h2)

/-- C7: over the files whose names start with the configured prefix,
locating the most recent file returns a file that matches the prefix and
has the maximum modification time (ties broken deterministically: the
fold keeps the first maximal element of the listing order), and when no
file matches it fails with the FileNotFoundError naming prefix and
directory. -/
theorem C7_locate_latest (fs : FileSystem) (dir : List String) (pfx : String) :
    ((fs.entriesOf dir).filter (fun f => strStartsWith f.name pfx) = [] →
      find_most_recent_file fs dir pfx = .error (.fileNotFoundError
        ("Nenhum arquivo com prefixo " ++ pfx ++ " encontrado em " ++
          String.intercalate "/" dir))) ∧
    (∀ f0 rest, (fs.entriesOf dir).filter (fun f => strStartsWith f.name pfx) = f0 :: rest →
      ∃ f, find_most_recent_file fs dir pfx = .ok f ∧ f ∈ f0 :: rest ∧
        ∀ g ∈ f0 :: rest, g.mtime ≤ f.mtime) := by
  constructor
  · intro hnil
    unfold find_most_recent_file
    rw [hnil]
  · intro f0 rest hcons
    unfold find_most_recent_file
    rw [hcons]
    obtain ⟨hmem, hmax⟩ := pyMaxBy_spec FileEntry.mtime rest f0
    exact ⟨_, rfl, hmem, hmax⟩

set_option maxRecDepth 4096 in
/-- C7 witness: a concrete directory with two prefix-matching files and
one other file; the second matching file has the larger mtime. -/
theorem C7_locate_latest_witness :
    ∃ f, find_most_recent_file
        ⟨[(["downloads"],
           [⟨"CONSULTA_TLP_PCP_CS_040126_1212.xlsx", 5, none⟩,
            ⟨"CONSULTA_TLP_PCP_CS_050126_0900.xlsx", 9, none⟩,
            ⟨"outro.txt", 99, none⟩])]⟩
        ["downloads"] "CONSULTA_TLP_PCP_CS" = .ok f ∧
      f ∈ [⟨"CONSULTA_TLP_PCP_CS_040126_1212.xlsx", 5, none⟩,
           (⟨"CONSULTA_TLP_PCP_CS_050126_0900.xlsx", 9, none⟩ : FileEntry)] ∧
      ∀ g ∈ [⟨"CONSULTA_TLP_PCP_CS_040126_1212.xlsx", 5, none⟩,
             (⟨"CONSULTA_TLP_PCP_CS_050126_0900.xlsx", 9, none⟩ : FileEntry)],
        g.mtime ≤ f.mtime :=
  (C7_locate_latest
    ⟨[(["downloads"],
       [⟨"CONSULTA_TLP_PCP_CS_040126_1212.xlsx", 5, none⟩,
        ⟨"CONSULTA_TLP_PCP_CS_050126_0900.xlsx", 9, none⟩,
        ⟨"outro.txt", 99, none⟩])]⟩
    ["downloads"] "CONSULTA_TLP_PCP_CS").2
    ⟨"CONSULTA_TLP_PCP_CS_040126_1212.xlsx", 5, none⟩
    [⟨"CONSULTA_TLP_PCP_CS_050126_0900.xlsx", 9, none⟩]
    (by decide)

theorem find?_append_none {α : Type} {p : α → Bool} {l1 l2 : List α}
    (h : l1.find? p = none) : (l1 ++ l2).find? p = l2.find? p := by
  induction l1 with
  | nil => rfl
  | cons x xs ih =>
    by_cases hpa : p x = true
    · rw [List.find?_cons_of_pos _ hpa] at h
      exact Option.noConfusion h
    · rw [List.find?_cons_of_neg _ hpa] at h
      rw [List.cons_append, List.find?_cons_of_neg _ hpa]
      exact ih h

theorem mkdirParents_existsDir (fs : FileSystem) (dir : List String) (k : Nat)
    (hk0 : 0 < k) (hk : k ≤ dir.length) :
    (mkdirParents fs dir).existsDir (dir.take k) = true := by
  unfold mkdirParents FileSystem.existsDir
  rw [List.any_append, Bool.or_eq_true]
  by_cases h : fs.existsDir (dir.take k) = true
  · left
    exact h
  · right
    have hfalse : fs.existsDir (dir.take k) = false := by
      cases hx : fs.existsDir (dir.take k)
      · rfl
      · exact absurd hx h
    have hmemPrefix : dir.take k ∈ nonemptyPrefixes dir := by
      unfold nonemptyPrefixes
      rw [List.mem_map]
      refine ⟨k - 1, List.mem_range.mpr (by omega), ?_⟩
      rw [show k - 1 + 1 = k from by omega]
    have hmemFilter : dir.take k ∈ (nonemptyPrefixes dir).filter (fun q => !(fs.existsDir q)) := by
      rw [List.mem_filter]
      exact ⟨hmemPrefix, by rw [hfalse]; rfl⟩
    have hmemMap : (dir.take k, ([] : List FileEntry)) ∈
        ((nonemptyPrefixes dir).filter (fun q => !(fs.existsDir q))).map
          (fun q => (q, ([] : List FileEntry))) :=
      List.mem_map_of_mem _ hmemFilter
    have hany : (((nonemptyPrefixes dir).filter (fun q => !(fs.existsDir q))).map
        (fun q => (q, ([] : List FileEntry)))).any (fun q => q.1 == dir.take k) = true := by
      rw [List.any_eq_true]
      exact ⟨_, hmemMap, by simp⟩
    exact hany

theorem mkdirParents_entriesOf_new (fs : FileSystem) (dir : List String)
    (hmiss : fs.existsDir dir = false) :
    (mkdirParents fs dir).entriesOf dir = [] := by
  unfold mkdirParents FileSystem.entriesOf
  have hnone : fs.dirs.find? (fun q => q.1 == dir) = none := by
    rw [List.find?_eq_none]
    intro x hx hpx
    have hcontra : fs.existsDir dir = true := by
      unfold FileSystem.existsDir
      rw [List.any_eq_true]
      exact ⟨x, hx, hpx⟩
    rw [hcontra] at hmiss
    exact Bool.noConfusion hmiss
  rw [find?_append_none hnone]
  cases hfind : (((nonemptyPrefixes dir).filter (fun q => !(fs.existsDir q))).map
      (fun q => (q, ([] : List FileEntry)))).find? (fun q => q.1 == dir) with
  | none => rfl
  | some pr =>
    have hm := List.mem_of_find?_eq_some hfind
    rw [List.mem_map] at hm
    obtain ⟨q, _, hq⟩ := hm
    rw [← hq]

/-- C10: constructing the handler with a nonexistent search directory
logs a warning, creates the directory and all its ancestors, and logs the
creation; consequently a scan of the freshly created (hence empty)
directory fails with the no-matching-file FileNotFoundError, not a
missing-directory error. -/
theorem C10_constructor_creates_missing_directory (fs : FileSystem) (dir : List String)
    (hne : dir ≠ []) (hmiss : fs.existsDir dir = false) :
    (handler_init fs dir).1.existsDir dir = true ∧
    (∀ k, 0 < k → k ≤ dir.length → (handler_init fs dir).1.existsDir (dir.take k) = true) ∧
    (handler_init fs dir).2 =
      [("warning", "Diretório não encontrado: " ++ String.intercalate "/" dir),
       ("info", "Diretório criado: " ++ String.intercalate "/" dir)] ∧
    (∀ pfx, find_most_recent_file (handler_init fs dir).1 dir pfx =
      .error (.fileNotFoundError ("Nenhum arquivo com prefixo " ++ pfx ++
        " encontrado em " ++ String.intercalate "/" dir))) := by
  have hinit : handler_init fs dir =
      (mkdirParents fs dir,
       [("warning", "Diretório não encontrado: " ++ String.intercalate "/" dir),
        ("info", "Diretório criado: " ++ String.intercalate "/" dir)]) := by
    unfold handler_init
    rw [hmiss]
    rfl
  refine ⟨?_, ?_, ?_, ?_⟩
  · rw [hinit]
    have h := mkdirParents_existsDir fs dir dir.length (List.length_pos.mpr hne) (le_refl _)
    rw [List.take_length] at h
    exact h
  · intro k hk0 hk
    rw [hinit]
    exact mkdirParents_existsDir fs dir k hk0 hk
  · rw [hinit]
  · intro pfx
    rw [hinit]
    unfold find_most_recent_file
    rw [show (mkdirParents fs dir, [("warning", "Diretório não encontrado: " ++ String.intercalate "/" dir), ("info", "Diretório criado: " ++ String.intercalate "/" dir)]).1 = mkdirParents fs dir from rfl]
    rw [mkdirParents_entriesOf_new fs dir hmiss]
    rfl

/-- C10 witness: initializing over an empty filesystem with a
three-component directory creates it and its ancestors, and the scan then
fails with the no-matching-file error. -/
theorem C10_constructor_creates_missing_directory_witness :
    (handler_init ⟨[]⟩ ["home", "user", "Downloads"]).1.existsDir
        ["home", "user", "Downloads"] = true ∧
    (handler_init ⟨[]⟩ ["home", "user", "Downloads"]).1.existsDir ["home"] = true ∧
    find_most_recent_file (handler_init ⟨[]⟩ ["home", "user", "Downloads"]).1
        ["home", "user", "Downloads"] "CONSULTA_TLP_PCP_CS" =
      .error (.fileNotFoundError
        "Nenhum arquivo com prefixo CONSULTA_TLP_PCP_CS encontrado em home/user/Downloads") :=
  ⟨(C10_constructor_creates_missing_directory ⟨[]⟩ ["home", "user", "Downloads"]
      (by decide) rfl).1,
   (C10_constructor_creates_missing_directory ⟨[]⟩ ["home", "user", "Downloads"]
      (by decide) rfl).2.1 1 (by decide) (by decide),
   (C10_constructor_creates_missing_directory ⟨[]⟩ ["home", "user", "Downloads"]
      (by decide) rfl).2.2.2 "CONSULTA_TLP_PCP_CS"⟩

theorem append_ne_empty_of_left (s t : String) (h : s.data ≠ []) : s ++ t ≠ "" := by
  intro he
  have hd : s.data ++ t.data = [] := congrArg String.data he
  rcases List.append_eq_nil.mp hd with ⟨h1, _⟩
  exact h h1

theorem load_to_dataframe_shape (fs : FileSystem) (p : String) :
    (((load_to_dataframe fs p).success = true ∧
        ∃ t, (load_to_dataframe fs p).dataframe = some t) ∨
      ((load_to_dataframe fs p).success = false ∧ (load_to_dataframe fs p).dataframe = none)) ∧
    (load_to_dataframe fs p).message ≠ "" := by
  unfold load_to_dataframe
  cases h : (read_excel fs p).bind (fun df => process_dataframe df p) with
  | ok t =>
    constructor
    · left
      exact ⟨rfl, t, rfl⟩
    · exact (by decide : ("Arquivo processado com sucesso" : String) ≠ "")
  | error e =>
    constructor
    · right
      exact ⟨rfl, rfl⟩
    · exact append_ne_empty_of_left _ _ (by decide)

/-- C1: the two loading operations never raise: for every filesystem and
path, loading returns a result value in which a success carries the
processed table, a failure carries no table, and the message is always
nonempty diagnostic text; and the public operation over an optional
explicit path behaves the same whether the path is given, found by the
scan, or the scan itself fails. -/
theorem C1_public_operations_never_raise (fs : FileSystem) (p : String)
    (dir : List String) (pfx : String) (fp : Option String) :
    (((load_to_dataframe fs p).success = true ∧
        ∃ t, (load_to_dataframe fs p).dataframe = some t) ∨
      ((load_to_dataframe fs p).success = false ∧ (load_to_dataframe fs p).dataframe = none)) ∧
    (load_to_dataframe fs p).message ≠ "" ∧
    (((process_most_recent_file fs dir pfx fp).success = true ∧
        ∃ t, (process_most_recent_file fs dir pfx fp).dataframe = some t) ∨
      ((process_most_recent_file fs dir pfx fp).success = false ∧
        (process_most_recent_file fs dir pfx fp).dataframe = none)) ∧
    (process_most_recent_file fs dir pfx fp).message ≠ "" := by
  have hl := load_to_dataframe_shape fs p
  refine ⟨hl.1, hl.2, ?_, ?_⟩ <;> revert hl
  all_goals intro _
  · cases fp with
    | some p2 => exact (load_to_dataframe_shape fs p2).1
    | none =>
      cases hf : find_most_recent_file fs dir pfx with
      | ok f =>
        have hp : process_most_recent_file fs dir pfx none = load_to_dataframe fs f.name := by
          unfold process_most_recent_file
          rw [hf]
          rfl
        rw [hp]
        exact (load_to_dataframe_shape fs f.name).1
      | error e =>
        have hp : process_most_recent_file fs dir pfx none =
            ⟨false, "Erro ao processar arquivo mais recente: " ++ e.message, none⟩ := by
          unfold process_most_recent_file
          rw [hf]
          rfl
        rw [hp]
        right
        exact ⟨rfl, rfl⟩
  · cases fp with
    | some p2 => exact (load_to_dataframe_shape fs p2).2
    | none =>
      cases hf : find_most_recent_file fs dir pfx with
      | ok f =>
        have hp : process_most_recent_file fs dir pfx none = load_to_dataframe fs f.name := by
          unfold process_most_recent_file
          rw [hf]
          rfl
        rw [hp]
        exact (load_to_dataframe_shape fs f.name).2
      | error e =>
        have hp : process_most_recent_file fs dir pfx none =
            ⟨false, "Erro ao processar arquivo mais recente: " ++ e.message, none⟩ := by
          unfold process_most_recent_file
          rw [hf]
          rfl
        rw [hp]
        exact append_ne_empty_of_left _ _ (by decide)

theorem mem_insertIdx_of_mem {α : Type} (b : α) :
    ∀ (n : Nat) (l : List α) (a : α), a ∈ l → a ∈ l.insertIdx n b := by
  intro n
  induction n with
  | zero =>
    intro l a h
    rw [List.insertIdx_zero]
    exact List.mem_cons_of_mem _ h
  | succ n ih =>
    intro l a h
    cases l with
    | nil => exact absurd h (List.not_mem_nil a)
    | cons x xs =>
      rw [List.insertIdx_succ_cons]
      rcases List.mem_cons.mp h with h2 | h2
      · subst h2
        exact List.mem_cons_self _ _
      · exact List.mem_cons_of_mem _ (ih xs a h2)

theorem processDateColumnSafe_names (t : Table) (col : String) :
    (processDateColumnSafe t col).cols.map Column.name = t.cols.map Column.name := by
  unfold processDateColumnSafe processDateColumnTry
  split
  · cases hb : dateColBody t col with
    | ok t2 =>
      unfold dateColBody at hb
      split at hb
      · exact Except.noConfusion hb
      · have h2 : Table.mk (t.cols.map (fun c =>
            if c.name == col then
              { c with dtype := DType.object, cells := c.cells.map dateCellTransform }
            else c)) = t2 := by
          injection hb
        rw [← h2]
        show (t.cols.map _).map Column.name = _
        rw [List.map_map]
        apply List.map_congr_left
        intro c _
        simp only [Function.comp_apply]
        split
        · rfl
        · rfl
    | error e =>
      rfl
  · rfl

theorem cleanupTable_names (t : Table) :
    (cleanupTable t).cols.map Column.name = t.cols.map Column.name := by
  unfold cleanupTable
  show (t.cols.map _).map Column.name = _
  rw [List.map_map]
  apply List.map_congr_left
  intro c _
  rfl

theorem normalizeTextColumns_names (t : Table) :
    (normalizeTextColumns t).cols.map Column.name = t.cols.map Column.name := by
  unfold normalizeTextColumns
  show (t.cols.map _).map Column.name = _
  rw [List.map_map]
  apply List.map_congr_left
  intro c _
  simp only [Function.comp_apply]
  split
  · rfl
  · rfl

theorem mapExcept_names {f : Column → Except PyError Column}
    (hf : ∀ c c2, f c = .ok c2 → c2.name = c.name) :
    ∀ (l l2 : List Column), mapExcept f l = .ok l2 →
      l2.map Column.name = l.map Column.name := by
  intro l
  induction l with
  | nil =>
    intro l2 h
    have h2 : ([] : List Column) = l2 := by
      injection h
    rw [← h2]
  | cons x xs ih =>
    intro l2 h
    unfold mapExcept at h
    cases hx : f x with
    | error e =>
      rw [hx] at h
      exact Except.noConfusion h
    | ok y =>
      rw [hx] at h
      cases hxs : mapExcept f xs with
      | error e =>
        rw [hxs] at h
        exact Except.noConfusion h
      | ok ys =>
        rw [hxs] at h
        have h2 : y :: ys = l2 := by
          injection h
        rw [← h2]
        simp only [List.map_cons]
        rw [hf x y hx, ih ys hxs]

theorem processIdColumn_names (t : Table) (col : String) (t2 : Table)
    (h : processIdColumn t col = .ok t2) :
    t2.cols.map Column.name = t.cols.map Column.name := by
  unfold processIdColumn at h
  split at h
  · cases hm : mapExcept (fun c =>
        if c.name == col then
          (idColTransform c.cells).map (fun cs => { c with dtype := DType.object, cells := cs })
        else .ok c) t.cols with
    | error e =>
      rw [hm] at h
      exact Except.noConfusion h
    | ok l2 =>
      rw [hm] at h
      have h2 : Table.mk l2 = t2 := by
        injection h
      rw [← h2]
      refine mapExcept_names ?_ t.cols l2 hm
      intro c c2 hfc
      by_cases hc : (c.name == col) = true
      · simp only [hc, if_true] at hfc
        cases hic : idColTransform c.cells with
        | error e =>
          rw [hic] at hfc
          exact Except.noConfusion hfc
        | ok cs =>
          rw [hic] at hfc
          have h3 : ({ c with dtype := DType.object, cells := cs } : Column) = c2 := by
            injection hfc
          rw [← h3]
      · simp only [hc, if_false] at hfc
        have h3 : c = c2 := by
          injection hfc
        rw [← h3]
  · have h2 : t = t2 := by
      injection h
    rw [h2]

theorem foldIdColumns_names :
    ∀ (cs : List String) (t t2 : Table), foldIdColumns t cs = .ok t2 →
      t2.cols.map Column.name = t.cols.map Column.name := by
  intro cs
  induction cs with
  | nil =>
    intro t t2 h
    have h2 : t = t2 := by
      injection h
    rw [h2]
  | cons c cs ih =>
    intro t t2 h
    unfold foldIdColumns at h
    cases hp : processIdColumn t c with
    | error e =>
      rw [hp] at h
      exact Except.noConfusion h
    | ok tmid =>
      rw [hp] at h
      rw [ih tmid t2 h, processIdColumn_names t c tmid hp]

theorem dateFold_names (t : Table) :
    (DATE_COLUMNS.foldl processDateColumnSafe t).cols.map Column.name =
      t.cols.map Column.name := by
  show (processDateColumnSafe (processDateColumnSafe
      (processDateColumnSafe t "data_criacao") "data_de_baixa") "data_encerramento").cols.map
      Column.name = _
  rw [processDateColumnSafe_names, processDateColumnSafe_names, processDateColumnSafe_names]

theorem insertCol_ok (t : Table) (loc : Nat) (nm : String) (v : Cell) (t2 : Table)
    (h : insertCol t loc nm v = .ok t2) :
    t2.cols = t.cols.insertIdx loc ⟨nm, .object, List.replicate t.nrows v⟩ := by
  unfold insertCol at h
  split at h
  · exact Except.noConfusion h
  · have h2 : Table.mk (t.cols.insertIdx loc ⟨nm, .object, List.replicate t.nrows v⟩) = t2 := by
      injection h
    rw [← h2]

theorem process_dataframe_ok_decomp (df : Table) (p : String) (t2 : Table)
    (h : process_dataframe df p = .ok t2) :
    ∃ (carga : String × String) (t0 t1 tid : Table),
      extract_datetime_from_filename p = .ok carga ∧
      insertCol (rename_columns df) 0 "dt_carga" (.str carga.1) = .ok t0 ∧
      insertCol t0 1 "dthr_carga" (.str carga.2) = .ok t1 ∧
      foldIdColumns (DATE_COLUMNS.foldl processDateColumnSafe t1) id_cols = .ok tid ∧
      t2 = normalizeTextColumns (cleanupTable tid) := by
  unfold process_dataframe at h
  cases he : extract_datetime_from_filename p with
  | error e =>
    rw [he] at h
    exact Except.noConfusion h
  | ok carga =>
    rw [he] at h
    have ha : (match insertCol (rename_columns df) 0 "dt_carga" (Cell.str carga.1) with
      | Except.error e => Except.error e
      | Except.ok df2 =>
        match insertCol df2 1 "dthr_carga" (Cell.str carga.2) with
        | Except.error e => Except.error e
        | Except.ok df3 =>
          match foldIdColumns (DATE_COLUMNS.foldl processDateColumnSafe df3) id_cols with
          | Except.error e => Except.error e
          | Except.ok df5 =>
            Except.ok (normalizeTextColumns (cleanupTable df5))) = Except.ok t2 := h
    cases h0 : insertCol (rename_columns df) 0 "dt_carga" (Cell.str carga.1) with
    | error e =>
      rw [h0] at ha
      exact Except.noConfusion ha
    | ok t0 =>
      rw [h0] at ha
      have hb : (match insertCol t0 1 "dthr_carga" (Cell.str carga.2) with
        | Except.error e => Except.error e
        | Except.ok df3 =>
          match foldIdColumns (DATE_COLUMNS.foldl processDateColumnSafe df3) id_cols with
          | Except.error e => Except.error e
          | Except.ok df5 =>
            Except.ok (normalizeTextColumns (cleanupTable df5))) = Except.ok t2 := ha
      cases h1 : insertCol t0 1 "dthr_carga" (Cell.str carga.2) with
      | error e =>
        rw [h1] at hb
        exact Except.noConfusion hb
      | ok t1 =>
        rw [h1] at hb
        have hc : (match foldIdColumns (DATE_COLUMNS.foldl processDateColumnSafe t1) id_cols with
          | Except.error e => Except.error e
          | Except.ok df5 =>
            Except.ok (normalizeTextColumns (cleanupTable df5))) = Except.ok t2 := hb
        cases h2 : foldIdColumns (DATE_COLUMNS.foldl processDateColumnSafe t1) id_cols with
        | error e =>
          rw [h2] at hc
          exact Except.noConfusion hc
        | ok tid =>
          rw [h2] at hc
          have h3 : normalizeTextColumns (cleanupTable tid) = t2 := by
            injection hc
          exact ⟨carga, t0, t1, tid, rfl, h0, h1, h2, h3.symm⟩

theorem renameColumn_unmapped (c : Column) (h : COLUMN_MAPPING.lookup c.name = none) :
    renameColumn c = c := by
  unfold renameColumn
  rw [h]
  rfl

/-- C9: column renaming is partial: a column whose source name is not a
key of the fixed mapping keeps its position, name and values across the
renaming step, and when the whole normalization succeeds a column of that
name is still present in the returned table. -/
theorem C9_unmapped_columns_survive :
    (∀ (t : Table) (i : Nat) (c : Column),
      t.cols[i]? = some c → COLUMN_MAPPING.lookup c.name = none →
      (rename_columns t).cols[i]? = some c) ∧
    (∀ (df : Table) (p : String) (t2 : Table),
      process_dataframe df p = .ok t2 →
      ∀ c ∈ df.cols, COLUMN_MAPPING.lookup c.name = none →
      ∃ c2 ∈ t2.cols, c2.name = c.name) := by
  constructor
  · intro t i c hi hl
    show (t.cols.map renameColumn)[i]? = some c
    rw [List.getElem?_map, hi]
    show some (renameColumn c) = some c
    rw [renameColumn_unmapped c hl]
  · intro df p t2 h c hc hl
    obtain ⟨carga, t0, t1, tid, _, h0, h1, h2, hshape⟩ := process_dataframe_ok_decomp df p t2 h
    have hmem0 : c ∈ (rename_columns df).cols := by
      show c ∈ df.cols.map renameColumn
      have hm := List.mem_map_of_mem renameColumn hc
      rw [renameColumn_unmapped c hl] at hm
      exact hm
    have hmem1 : c ∈ t0.cols := by
      rw [insertCol_ok _ _ _ _ _ h0]
      exact mem_insertIdx_of_mem _ 0 _ c hmem0
    have hmem2 : c ∈ t1.cols := by
      rw [insertCol_ok _ _ _ _ _ h1]
      exact mem_insertIdx_of_mem _ 1 _ c hmem1
    have hname2 : c.name ∈ t2.cols.map Column.name := by
      rw [hshape, normalizeTextColumns_names, cleanupTable_names,
          foldIdColumns_names id_cols _ tid h2, dateFold_names]
      exact List.mem_map_of_mem Column.name hmem2
    rw [List.mem_map] at hname2
    obtain ⟨c2, hc2, hc2n⟩ := hname2
    exact ⟨c2, hc2, hc2n⟩

/-- C9 witness: the unmapped column Foo survives the renaming step at its
position, and survives the whole normalization of a one-row table. -/
theorem C9_unmapped_columns_survive_witness :
    (rename_columns ⟨[⟨"Foo", .other, [.int 7]⟩]⟩).cols[0]? =
      some ⟨"Foo", .other, [.int 7]⟩ ∧
    ∃ c2 ∈ (⟨[⟨"dt_carga", .object, [.str "2026-01-04"]⟩,
              ⟨"dthr_carga", .object, [.str "2026-01-04 12:12"]⟩,
              ⟨"Foo", .other, [.int 7]⟩]⟩ : Table).cols, c2.name = "Foo" :=
  ⟨C9_unmapped_columns_survive.1 ⟨[⟨"Foo", .other, [.int 7]⟩]⟩ 0 ⟨"Foo", .other, [.int 7]⟩ rfl rfl,
   C9_unmapped_columns_survive.2 ⟨[⟨"Foo", .other, [.int 7]⟩]⟩ "CONSULTA_TLP_PCP_CS_040126_1212.xlsx"
     ⟨[⟨"dt_carga", .object, [.str "2026-01-04"]⟩,
       ⟨"dthr_carga", .object, [.str "2026-01-04 12:12"]⟩,
       ⟨"Foo", .other, [.int 7]⟩]⟩ rfl
     ⟨"Foo", .other, [.int 7]⟩ (by decide) rfl⟩

theorem textCell_cleanup_good (x : Cell) :
    textCellTransform (cleanupCell x) = .missing ∨
    ∃ s, textCellTransform (cleanupCell x) = .str s ∧
      s ≠ "nan" ∧ s ≠ "None" ∧ s ≠ "" ∧ s ≠ "NaT" := by
  cases x with
  | missing =>
    left
    rfl
  | int n =>
    have hne := intDecStr_ne_sentinel n
    right
    refine ⟨intDecStr n, ?_, hne.1, hne.2.1, hne.2.2.1, hne.2.2.2⟩
    show textCellTransform (Cell.int n) = Cell.str (intDecStr n)
    simp only [textCellTransform, cellToString]
    rw [if_neg hne.2.1]
  | str s =>
    cases hcond : (decide (s = "nan") || decide (s = "None") || decide (s = "") ||
        decide (s = "NaT")) with
    | true =>
      left
      have h1 : cleanupCell (.str s) = .missing := by
        rw [cleanupCell_str, hcond]
        rfl
      rw [h1]
      rfl
    | false =>
      have h1 : cleanupCell (.str s) = .str s := by
        rw [cleanupCell_str, hcond]
        rfl
      rw [h1]
      have hs : ¬(s = "nan") ∧ ¬(s = "None") ∧ ¬(s = "") ∧ ¬(s = "NaT") := by
        simp only [Bool.or_eq_false_iff, decide_eq_false_iff_not] at hcond
        exact ⟨hcond.1.1.1, hcond.1.1.2, hcond.1.2, hcond.2⟩
      right
      refine ⟨s, ?_, hs.1, hs.2.1, hs.2.2.1, hs.2.2.2⟩
      simp only [textCellTransform, cellToString]
      rw [if_neg hs.2.1]

/-- C6: in the table the normalization returns, every object-dtype (text)
column holds only string cells and missing markers, and none of its cells
is one of the literal sentinel strings nan, None, empty string or NaT:
the global cleanup removed them, and the None literal reintroduced by the
stringification pass is substituted back to the marker. -/
theorem C6_text_columns_sentinel_free (df : Table) (p : String) (t2 : Table)
    (h : process_dataframe df p = .ok t2) :
    ∀ c ∈ t2.cols, c.dtype = .object →
      ∀ x ∈ c.cells, x = .missing ∨
        ∃ s, x = .str s ∧ s ≠ "nan" ∧ s ≠ "None" ∧ s ≠ "" ∧ s ≠ "NaT" := by
  obtain ⟨carga, t0, t1, tid, _, _, _, _, hshape⟩ := process_dataframe_ok_decomp df p t2 h
  subst hshape
  intro c hc hdtype x hx
  have hc2 : c ∈ (cleanupTable tid).cols.map (fun c =>
      if c.dtype = DType.object then { c with cells := c.cells.map textCellTransform }
      else c) := hc
  rw [List.mem_map] at hc2
  obtain ⟨c1, hc1, hcdef⟩ := hc2
  have hc3 : c1 ∈ tid.cols.map (fun c => { c with cells := c.cells.map cleanupCell }) := hc1
  rw [List.mem_map] at hc3
  obtain ⟨c0, _, hc1def⟩ := hc3
  by_cases hd : c1.dtype = DType.object
  · have hcform : c = { c1 with cells := c1.cells.map textCellTransform } := by
      rw [← hcdef, if_pos hd]
    have hcells : c1.cells = c0.cells.map cleanupCell := by
      rw [← hc1def]
    rw [hcform] at hx
    have hx2 : x ∈ (c0.cells.map cleanupCell).map textCellTransform := by
      rw [← hcells]
      exact hx
    rw [List.map_map, List.mem_map] at hx2
    obtain ⟨y, _, hy⟩ := hx2
    have hy2 : textCellTransform (cleanupCell y) = x := hy
    rw [← hy2]
    exact textCell_cleanup_good y
  · have hceq : c = c1 := by
      rw [← hcdef, if_neg hd]
    rw [hceq] at hdtype
    exact absurd hdtype hd

/-- C6 witness: a one-row table whose only column holds the literal
string nan; after normalization the text column cell is the missing
marker, an instance of the sentinel-free guarantee. -/
theorem C6_text_columns_sentinel_free_witness :
    Cell.missing = Cell.missing ∨
    ∃ s, Cell.missing = Cell.str s ∧ s ≠ "nan" ∧ s ≠ "None" ∧ s ≠ "" ∧ s ≠ "NaT" :=
  C6_text_columns_sentinel_free ⟨[⟨"x", .object, [.str "nan"]⟩]⟩
    "CONSULTA_TLP_PCP_CS_040126_1212.xlsx"
    ⟨[⟨"dt_carga", .object, [.str "2026-01-04"]⟩,
      ⟨"dthr_carga", .object, [.str "2026-01-04 12:12"]⟩,
      ⟨"x", .object, [.missing]⟩]⟩ rfl
    ⟨"x", .object, [.missing]⟩ (by decide) rfl Cell.missing (by decide)
